import Mathlib

/-!
Verification development for the gamestorylog-assets batch image-conversion
scripts (src/convert-and-upload.js, src/config.js). The repository holds two
near-duplicate script variants concatenated in one file: the first (lines
1-376) is a sequential loop with a resize policy, the second (lines 377-739)
processes files with Promise.all, a quality parameter, recompress/copy
operations and an error list. Both are embedded below over an explicit
world of filesystem/codec effects.
-/

namespace GSL

/-! ## JS string primitives, modelled over explicit character lists
(String.toLower and friends from core do not reduce in the kernel, so the
embedding works on List Char throughout). -/

/-- Boolean list-prefix test, used to model JS substring operations. -/
def startsB : List Char → List Char → Bool
  | [], _ => true
  | _ :: _, [] => false
  | a :: as, b :: bs => a == b && startsB as bs

/-- Boolean list-infix test: does the second list contain the first as a
contiguous run. Models JS String.prototype.includes. -/
def insideB (needle : List Char) : List Char → Bool
  | [] => needle.isEmpty
  | c :: rest => startsB needle (c :: rest) || insideB needle rest

/-- Boolean list-suffix test. Models JS regex anchored at end of string. -/
def endsB (needle hay : List Char) : Bool := startsB needle.reverse hay.reverse

/-- ASCII lower-casing of a character list. The filenames the scripts deal
with are ASCII, where JS toLowerCase and Char.toLower agree. -/
def lowerChars (l : List Char) : List Char := l.map Char.toLower

/-- Models file.toLowerCase(). -/
def jsToLower (s : String) : String := String.mk (lowerChars s.data)

/-- Models s.includes(sub). -/
def jsIncludes (s sub : String) : Bool := insideB sub.data s.data

/-- Models Node path.join for the call shapes the scripts use: the directory
is of the form "./name" (the leading "./" is normalised away) and the file
part is a relative name without a leading slash. -/
def pathJoin (dir file : String) : String :=
  let d : List Char := match dir.data with
    | '.' :: '/' :: rest => rest
    | l => l
  String.mk (d ++ '/' :: file.data)

/-- Characters after the last slash, accumulator-style. -/
def lastComponentAux : List Char → List Char → List Char
  | [], acc => acc.reverse
  | c :: rest, acc => if c = '/' then lastComponentAux rest [] else lastComponentAux rest (c :: acc)

/-- Models Node path.basename: the part after the last "/". -/
def lastComponent (s : String) : String := String.mk (lastComponentAux s.data [])

/-- On a reversed character list, drop everything up to and including the
first dot; none when there is no dot. -/
def dropLastExtAux : List Char → Option (List Char)
  | [] => none
  | c :: rest => if c = '.' then some rest else dropLastExtAux rest

/-- Models Node path.parse(base).name: the base name with its final
extension removed; a lone leading dot (".bashrc") is kept whole. -/
def parseNameOf (base : String) : String :=
  match dropLastExtAux base.data.reverse with
  | none => base
  | some [] => base
  | some (c :: rest) => String.mk (c :: rest).reverse

/-- Models JS parseInt(s) in radix 10: skip leading spaces, one optional
sign, then the longest digit prefix; none models NaN. -/
def parseIntJS (s : String) : Option Int :=
  let cs := s.data.dropWhile (fun c => c = ' ')
  let signed : Bool × List Char := match cs with
    | '-' :: r => (true, r)
    | '+' :: r => (false, r)
    | r => (false, r)
  let digits := signed.2.takeWhile Char.isDigit
  if digits.isEmpty then none
  else
    let n : Nat := digits.foldl (fun a c => a * 10 + (c.toNat - 48)) 0
    some (if signed.1 then -(n : Int) else (n : Int))

/-- Models Number.prototype.toFixed(1) read back as an exact rational:
round to the nearest tenth, ties toward positive infinity (the ECMA rule
picks the larger candidate integer on a tie). -/
def round1 (q : ℚ) : ℚ := (⌊q * 10 + 1/2⌋ : ℤ) / 10

/-! ## Configuration (src/config.js) -/

namespace Config

def inputFolder : String := "./input-images"
def githubUsername : String := "yourusername"
def repoName : String := "gamestory-assets"
def branch : String := "main"
def defaultQuality : Int := 80
def maxAspectRatio : ℚ := 3

end Config

/-! ## Classifier (convert-and-upload.js lines 194-205 and 537-548; both
variants test the same tokens in the same order) -/

/-- Destination bucket of a source image. -/
inductive Bucket
  | cover
  | banner
  | screenshot
deriving DecidableEq, Repr

/-- Models the test: lower-case the filename, then look for the token "banner" or the infix " b." anywhere in it. -/
def hasBannerTok (file : String) : Bool :=
  jsIncludes (jsToLower file) "banner" || jsIncludes (jsToLower file) " b."

/-- Models the test: lower-case the filename, then look for "screenshot", "screen" or the infix " s". -/
def hasScreenTok (file : String) : Bool :=
  jsIncludes (jsToLower file) "screenshot" || jsIncludes (jsToLower file) "screen" ||
    jsIncludes (jsToLower file) " s"

/-- Models the test: lower-case the filename, then look for "cover" or the infix " c.". -/
def hasCoverTok (file : String) : Bool :=
  jsIncludes (jsToLower file) "cover" || jsIncludes (jsToLower file) " c."

/-- The classifier: default bucket is cover, then the banner, screenshot and
cover checks reassign it in that order (an if / else-if chain in both
variants). -/
def classify (file : String) : Bucket :=
  if hasBannerTok file then .banner
  else if hasScreenTok file then .screenshot
  else if hasCoverTok file then .cover
  else .cover

/-- Output directory per bucket: identical in both variants
(OUTPUT_FOLDERS resp. config.outputFolders). -/
def outputFolder : Bucket → String
  | .cover => "./covers"
  | .banner => "./banners"
  | .screenshot => "./screenshots"

/-- folderType strings of the first variant ("covers", "banners", "screenshots"). -/
def folderType1 : Bucket → String
  | .cover => "covers"
  | .banner => "banners"
  | .screenshot => "screenshots"

/-- folderType strings of the second variant ("cover", "banner", "screenshot"). -/
def bucketName2 : Bucket → String
  | .cover => "cover"
  | .banner => "banner"
  | .screenshot => "screenshot"

/-- The extension filter regex of both variants,
/\.(jpg|jpeg|png|gif|bmp|webp)$/i. -/
def isImageFile (file : String) : Bool :=
  [".jpg", ".jpeg", ".png", ".gif", ".bmp", ".webp"].any
    (fun ext => endsB ext.data (lowerChars file.data))

/-- The /\.webp$/i test of the second variant. -/
def isWebpName (file : String) : Bool := endsB ".webp".data (lowerChars file.data)

/-- Destination path of a source file: path.join(outputFolder,
path.parse(file).name plus ".webp"); identical computation in both variants. -/
def destPath (file : String) : String :=
  pathJoin (outputFolder (classify file)) (parseNameOf (lastComponent file) ++ ".webp")

/-- Source path of a file: path.join(inputFolder, file). -/
def inputPathOf (file : String) : String := pathJoin Config.inputFolder file

/-! ## Converter contract -/

/-- The resize options object handed to sharp.resize by the first variant:
either fit cover with centered position (crop to fill), or fit inside with
withoutEnlargement set to false (enlargement permitted). -/
structure ResizeOpts where
  fit : String
  position : Option String
  withoutEnlargement : Option Bool
deriving DecidableEq, Repr

/-- The externally observable actions a converter performs, in order. -/
inductive Step
  | statIn (p : String)
  | probe (p : String)
  | warnAspect (p : String) (width height : Nat)
  | resizeEncode (inp outp : String) (quality targetW targetH : Nat) (opts : ResizeOpts)
  | plainEncode (inp outp : String) (quality : Int)
  | statOut (p : String)
  | report (originalSize convertedSize : Nat) (savedSpace : Int) (compressionRatio : ℚ)
  | copyStep (inp outp : String)
deriving DecidableEq

/-- Result record of one conversion: sizes plus save delta on success, the
caught error message otherwise (the first variant returns null on failure;
only truthiness of the result is ever consumed there, so the same err
constructor models it). -/
inductive ConversionResult
  | ok (originalSize convertedSize : Nat) (savedSpace : Int) (inputPath : String)
  | err (error : String) (inputPath : String)
deriving DecidableEq

/-- Boolean success test on a result (result && !result.error). -/
def isOkB : ConversionResult → Bool
  | .ok _ _ _ _ => true
  | .err _ _ => false

/-- Full output of one converter call: the returned result, whether the
destination file was written, and the action trace. -/
structure ConvOut where
  result : ConversionResult
  wrote : Bool
  steps : List Step
deriving DecidableEq

/-- The world of external effects the converters perform: fs.statSync
(file byte size or a thrown message), sharp metadata (pixel width and
height), the two encode-to-file shapes, and fs.copyFileSync. -/
structure World where
  stat : String → Except String Nat
  metadata : String → Except String (Nat × Nat)
  encode : String → String → Int → Except String Unit
  encodeResize : String → String → Nat → Nat → Nat → ResizeOpts → Except String Unit
  copyFile : String → String → Except String Unit

/-! ## Resize Policy (first variant, lines 102-140) -/

/-- Target dimensions and target aspect ratio per imageType string:
the type "covers" gets 600 by 900 at ratio 2/3, everything else 1920 by 1080 at
ratio 16/9. -/
def targetBox (imageType : String) : Nat × Nat × ℚ :=
  if imageType = "covers" then (600, 900, 2/3) else (1920, 1080, 16/9)

/-- The crop-vs-fit decision: crop when the native ratio differs from the
target ratio by more than 0.1. The source compares IEEE doubles; the
embedding idealises the quotient and the threshold as exact rationals. -/
def useCoverFit (imageType : String) (width height : Nat) : Bool :=
  decide (|(width : ℚ) / height - (targetBox imageType).2.2| > 1/10)

/-- The options object passed to sharp.resize: fit "cover" from "center"
when cropping, otherwise fit "inside" with withoutEnlargement: false
(source lines 121-135). -/
def resizeOptsFor (imageType : String) (width height : Nat) : ResizeOpts :=
  if useCoverFit imageType width height then ⟨"cover", some "center", none⟩
  else ⟨"inside", none, some false⟩

/-- convertToWebP of the first variant (lines 90-162): stat the source,
probe metadata, resize per the policy and encode to WebP at quality 80,
stat the output, report sizes; any thrown step yields the error result and
the batch-visible null (modelled as err). -/
def convertToWebP1 (w : World) (inputPath outputPath imageType : String) : ConvOut :=
  match w.stat inputPath with
  | .error m => ⟨.err m inputPath, false, [.statIn inputPath]⟩
  | .ok originalSize =>
    match w.metadata inputPath with
    | .error m => ⟨.err m inputPath, false, [.statIn inputPath, .probe inputPath]⟩
    | .ok (originalWidth, originalHeight) =>
      let tb := targetBox imageType
      let opts := resizeOptsFor imageType originalWidth originalHeight
      let enc := Step.resizeEncode inputPath outputPath 80 tb.1 tb.2.1 opts
      match w.encodeResize inputPath outputPath 80 tb.1 tb.2.1 opts with
      | .error m => ⟨.err m inputPath, false, [.statIn inputPath, .probe inputPath, enc]⟩
      | .ok _ =>
        match w.stat outputPath with
        | .error m =>
          ⟨.err m inputPath, true, [.statIn inputPath, .probe inputPath, enc, .statOut outputPath]⟩
        | .ok convertedSize =>
          ⟨.ok originalSize convertedSize ((originalSize : Int) - convertedSize) inputPath, true,
            [.statIn inputPath, .probe inputPath, enc, .statOut outputPath,
              .report originalSize convertedSize ((originalSize : Int) - convertedSize)
                (round1 (((originalSize : ℚ) - convertedSize) / originalSize * 100))]⟩

/-- convertToWebP of the second variant (lines 419-451): stat the source,
probe metadata, warn when the aspect ratio leaves [1/3, 3], encode to WebP
at the given quality with no resize, stat the output, report sizes; any
thrown step yields a result carrying the error message and input path. -/
def convertToWebP2 (w : World) (inputPath outputPath : String) (quality : Int) : ConvOut :=
  match w.stat inputPath with
  | .error m => ⟨.err m inputPath, false, [.statIn inputPath]⟩
  | .ok originalSize =>
    match w.metadata inputPath with
    | .error m => ⟨.err m inputPath, false, [.statIn inputPath, .probe inputPath]⟩
    | .ok (width, height) =>
      let aspectRatio : ℚ := (width : ℚ) / height
      let warn : List Step :=
        if aspectRatio > Config.maxAspectRatio ∨ aspectRatio < 1 / Config.maxAspectRatio
        then [.warnAspect inputPath width height] else []
      let pre := [Step.statIn inputPath, Step.probe inputPath] ++ warn
      match w.encode inputPath outputPath quality with
      | .error m => ⟨.err m inputPath, false, pre ++ [.plainEncode inputPath outputPath quality]⟩
      | .ok _ =>
        match w.stat outputPath with
        | .error m =>
          ⟨.err m inputPath, true,
            pre ++ [.plainEncode inputPath outputPath quality, .statOut outputPath]⟩
        | .ok convertedSize =>
          ⟨.ok originalSize convertedSize ((originalSize : Int) - convertedSize) inputPath, true,
            pre ++ [.plainEncode inputPath outputPath quality, .statOut outputPath,
              .report originalSize convertedSize ((originalSize : Int) - convertedSize)
                (round1 (((originalSize : ℚ) - convertedSize) / originalSize * 100))]⟩

/-- recompressWebP of the second variant (lines 453-485): textually the
same steps as convertToWebP2, byte for byte, apart from log wording (which
the embedding does not model). -/
def recompressWebP2 (w : World) (inputPath outputPath : String) (quality : Int) : ConvOut :=
  match w.stat inputPath with
  | .error m => ⟨.err m inputPath, false, [.statIn inputPath]⟩
  | .ok originalSize =>
    match w.metadata inputPath with
    | .error m => ⟨.err m inputPath, false, [.statIn inputPath, .probe inputPath]⟩
    | .ok (width, height) =>
      let aspectRatio : ℚ := (width : ℚ) / height
      let warn : List Step :=
        if aspectRatio > Config.maxAspectRatio ∨ aspectRatio < 1 / Config.maxAspectRatio
        then [.warnAspect inputPath width height] else []
      let pre := [Step.statIn inputPath, Step.probe inputPath] ++ warn
      match w.encode inputPath outputPath quality with
      | .error m => ⟨.err m inputPath, false, pre ++ [.plainEncode inputPath outputPath quality]⟩
      | .ok _ =>
        match w.stat outputPath with
        | .error m =>
          ⟨.err m inputPath, true,
            pre ++ [.plainEncode inputPath outputPath quality, .statOut outputPath]⟩
        | .ok convertedSize =>
          ⟨.ok originalSize convertedSize ((originalSize : Int) - convertedSize) inputPath, true,
            pre ++ [.plainEncode inputPath outputPath quality, .statOut outputPath,
              .report originalSize convertedSize ((originalSize : Int) - convertedSize)
                (round1 (((originalSize : ℚ) - convertedSize) / originalSize * 100))]⟩

/-- copyWebP of the second variant (lines 487-503): copy the bytes, stat
the source, and report equal before/after sizes with zero savings. -/
def copyWebP2 (w : World) (inputPath outputPath : String) : ConvOut :=
  match w.copyFile inputPath outputPath with
  | .error m => ⟨.err m inputPath, false, [.copyStep inputPath outputPath]⟩
  | .ok _ =>
    match w.stat inputPath with
    | .error m => ⟨.err m inputPath, true, [.copyStep inputPath outputPath, .statIn inputPath]⟩
    | .ok fileSize =>
      ⟨.ok fileSize fileSize 0 inputPath, true, [.copyStep inputPath outputPath, .statIn inputPath]⟩

/-! ## Batch Orchestrator, second variant (lines 505-649) -/

/-- Operation dispatch and execution for one non-skipped file (lines
558-567): an existing WebP is copied when --no-recompress is set and
recompressed otherwise; everything else is converted. -/
def processOne2 (w : World) (noRecompress : Bool) (quality : Int) (f : String) : ConvOut :=
  if isWebpName f then
    if noRecompress then copyWebP2 w (inputPathOf f) (destPath f)
    else recompressWebP2 w (inputPathOf f) (destPath f) quality
  else convertToWebP2 w (inputPathOf f) (destPath f) quality

/-- The extension filter over the enumerated files (lines 511-514). -/
def eligibleFiles (files : List String) : List String := files.filter isImageFile

/-- The files that are actually dispatched. Promise.all runs every per-file
callback synchronously up to its first await, and the fs.existsSync check
(line 552) sits before that first await, so every existence check observes
the pre-run filesystem fs0: a file is skipped exactly when its destination
already existed before the run. -/
def planned2 (fs0 files : List String) : List String :=
  (eligibleFiles files).filter (fun f => !(fs0.contains (destPath f)))

/-- The per-file outputs of one run, in enumeration order. -/
def runResults2 (w : World) (noRecompress : Bool) (quality : Int)
    (fs0 files : List String) : List ConvOut :=
  (planned2 fs0 files).map (processOne2 w noRecompress quality)

/-- The destination paths the run writes, with multiplicity. -/
def writes2 (w : World) (noRecompress : Bool) (quality : Int)
    (fs0 files : List String) : List String :=
  (planned2 fs0 files).filterMap
    (fun f => if (processOne2 w noRecompress quality f).wrote then some (destPath f) else none)

/-- The error entry the orchestrator records for a failed result (line
586): basename of the input path together with the message. -/
def errEntry : ConversionResult → Option (String × String)
  | .err m p => some (lastComponent p, m)
  | .ok _ _ _ _ => none

/-- The error list of the run summary. -/
def runErrors2 (w : World) (noRecompress : Bool) (quality : Int)
    (fs0 files : List String) : List (String × String) :=
  (runResults2 w noRecompress quality fs0 files).filterMap (fun o => errEntry o.result)

/-- successCount after the run. -/
def runSuccessCount2 (w : World) (noRecompress : Bool) (quality : Int)
    (fs0 files : List String) : Nat :=
  (runResults2 w noRecompress quality fs0 files).countP (fun o => isOkB o.result)

/-- Original size of a successful result, zero otherwise (only successes
are accumulated, line 571). -/
def origSizeOf : ConversionResult → Nat
  | .ok s _ _ _ => s
  | .err _ _ => 0

/-- Converted size of a successful result, zero otherwise. -/
def convSizeOf : ConversionResult → Nat
  | .ok _ t _ _ => t
  | .err _ _ => 0

/-- totalOriginalSize after the run. -/
def runTotalOriginal2 (w : World) (noRecompress : Bool) (quality : Int)
    (fs0 files : List String) : Nat :=
  ((runResults2 w noRecompress quality fs0 files).map (fun o => origSizeOf o.result)).sum

/-- totalConvertedSize after the run. -/
def runTotalConverted2 (w : World) (noRecompress : Bool) (quality : Int)
    (fs0 files : List String) : Nat :=
  ((runResults2 w noRecompress quality fs0 files).map (fun o => convSizeOf o.result)).sum

/-- The summary block of the second variant (lines 593-601): printed only
when successCount > 0, and the percentage is computed only when totalSaved
is positive, else the literal 0 is printed. -/
def reportedRatio2 (successCount totalOriginalSize totalConvertedSize : Nat) : Option ℚ :=
  if 0 < successCount then
    let totalSaved : ℚ := (totalOriginalSize : ℚ) - (totalConvertedSize : ℚ)
    some (if 0 < totalSaved then round1 (totalSaved / (totalOriginalSize : ℚ) * 100) else 0)
  else none

/-- The summary block of the first variant (lines 232-240): printed only
when successCount > 0; the percentage is computed unconditionally. -/
def reportedRatio1 (successCount totalOriginalSize totalConvertedSize : Nat) : Option ℚ :=
  if 0 < successCount then
    some (round1 (((totalOriginalSize : ℚ) - (totalConvertedSize : ℚ))
      / (totalOriginalSize : ℚ) * 100))
  else none

/-- The CDN URL template of the second variant (line 578). -/
def urlFor (b : Bucket) (filename username repoName branch : String) : String :=
  "https://cdn.jsdelivr.net/gh/" ++ username ++ "/" ++ repoName ++ "@" ++ branch ++ "/" ++
    bucketName2 b ++ "/" ++ filename

/-- The quality the convert subcommand uses (line 524):
parseInt(process.argv[3]) || config.defaultQuality. Both NaN and 0 are
falsy in JS, so both fall back to the default. -/
def quality2 (argv3 : Option String) : Int :=
  match argv3 with
  | none => Config.defaultQuality
  | some s =>
    match parseIntJS s with
    | none => Config.defaultQuality
    | some n => if n = 0 then Config.defaultQuality else n

/-! ## Batch Orchestrator, first variant (lines 164-279): a sequential
for-loop, existsSync checked against the current filesystem state. -/

/-- State of the sequential loop: the set of output paths present on disk
(as a list), plus instrumentation (writes performed, files dispatched to
the converter) and the accumulated totals. -/
structure SeqState where
  existing : List String
  writes : List String
  invoked : List String
  totalOriginalSize : Nat
  totalConvertedSize : Nat
  successCount : Nat
deriving Repr

/-- The first-variant conversion the loop body runs for file f. -/
def seqConv (w : World) (f : String) : ConvOut :=
  convertToWebP1 w (inputPathOf f) (destPath f) (folderType1 (classify f))

/-- Destination writes that conversion performs (empty when nothing was
written). -/
def seqWr (w : World) (f : String) : List String :=
  if (seqConv w f).wrote then [destPath f] else []

/-- One iteration of the first variant loop (lines 189-229): recompute the
destination, skip when it exists, otherwise convert, record the write, and
accumulate sizes and the success count on success only (origSizeOf and
convSizeOf are zero on a failed result, matching the source, which adds
nothing there). -/
def seqStep (w : World) (st : SeqState) (f : String) : SeqState :=
  if st.existing.contains (destPath f) then st
  else
    ⟨st.existing ++ seqWr w f, st.writes ++ seqWr w f, st.invoked ++ [f],
      st.totalOriginalSize + origSizeOf (seqConv w f).result,
      st.totalConvertedSize + convSizeOf (seqConv w f).result,
      st.successCount + (if isOkB (seqConv w f).result then 1 else 0)⟩

/-- Fold of the loop over the file list. -/
def runSeqAux (w : World) : SeqState → List String → SeqState
  | st, [] => st
  | st, f :: rest => runSeqAux w (seqStep w st f) rest

/-- The first variant run over an initial filesystem fs0 (the output paths
present before the run) and the enumerated directory entries. -/
def runSeq (w : World) (fs0 files : List String) : SeqState :=
  runSeqAux w ⟨fs0, [], [], 0, 0, 0⟩ (files.filter isImageFile)

/-! ## Concrete worlds used by witnesses and counterexamples -/

/-- Everything succeeds; every stat reports 100 bytes, every image is
600 by 900. -/
def wAll : World :=
  ⟨fun _ => .ok 100, fun _ => .ok (600, 900), fun _ _ _ => .ok (),
    fun _ _ _ _ _ _ => .ok (), fun _ _ => .ok ()⟩

/-- Like wAll but the output file covers/a.webp stats at 150 bytes, so a
100-byte source grows on conversion. -/
def wGrow : World :=
  ⟨fun p => if p = "covers/a.webp" then .ok 150 else .ok 100,
    fun _ => .ok (600, 900), fun _ _ _ => .ok (),
    fun _ _ _ _ _ _ => .ok (), fun _ _ => .ok ()⟩

/-- Like wAll but the metadata probe of input-images/bad.jpg throws. -/
def wBadMeta : World :=
  ⟨fun _ => .ok 100,
    fun p => if p = "input-images/bad.jpg" then .error "unsupported" else .ok (600, 900),
    fun _ _ _ => .ok (), fun _ _ _ _ _ _ => .ok (), fun _ _ => .ok ()⟩

/-- Like wAll but the resizing encoder throws, keeping first-variant traces
short of the rational report step. -/
def wNoEnc : World :=
  ⟨fun _ => .ok 100, fun _ => .ok (600, 900), fun _ _ _ => .ok (),
    fun _ _ _ _ _ _ => .error "enc", fun _ _ => .ok ()⟩

/-- Like wNoEnc but every image probes as 1920 by 1080. -/
def wWide : World :=
  ⟨fun _ => .ok 100, fun _ => .ok (1920, 1080), fun _ _ _ => .ok (),
    fun _ _ _ _ _ _ => .error "enc", fun _ _ => .ok ()⟩

/-! ## Generic list lemmas -/

/-- A filterMap hitting exactly one element of a duplicate-free list
collapses to that single image. -/
theorem filterMap_eq_single {α β : Type} {p : α → Option β} {a : α} {b : β} :
    ∀ {l : List α}, l.Nodup → a ∈ l → p a = some b →
      (∀ x ∈ l, x ≠ a → p x = none) → l.filterMap p = [b] := by
  intro l
  induction l with
  | nil => intro _ ha; cases ha
  | cons x t ih =>
    intro hnd hmem hpa hrest
    rcases List.nodup_cons.mp hnd with ⟨hx, ht⟩
    rcases List.mem_cons.mp hmem with rfl | hat
    · have htnone : ∀ y ∈ t, p y = none := by
        intro y hy
        refine hrest y (List.mem_cons_of_mem _ hy) ?_
        intro hya; subst hya; exact hx hy
      rw [List.filterMap_cons_some hpa, List.filterMap_eq_nil_iff.mpr htnone]
    · have hxa : x ≠ a := by rintro rfl; exact hx hat
      have hpx : p x = none := hrest x (List.mem_cons_self x t) hxa
      rw [List.filterMap_cons_none hpx]
      exact ih ht hat hpa (fun y hy hya => hrest y (List.mem_cons_of_mem _ hy) hya)

/-- Counting a Boolean predicate that fails at exactly one element of a
duplicate-free list gives length minus one. -/
theorem countP_single_false {α : Type} {p : α → Bool} {a : α} :
    ∀ {l : List α}, l.Nodup → a ∈ l → p a = false →
      (∀ x ∈ l, x ≠ a → p x = true) → l.countP p = l.length - 1 := by
  intro l
  induction l with
  | nil => intro _ ha; cases ha
  | cons x t ih =>
    intro hnd hmem hpa hrest
    rcases List.nodup_cons.mp hnd with ⟨hx, ht⟩
    rcases List.mem_cons.mp hmem with rfl | hat
    · have htall : ∀ y ∈ t, p y = true := by
        intro y hy
        refine hrest y (List.mem_cons_of_mem _ hy) ?_
        intro hya; subst hya; exact hx hy
      rw [List.countP_cons, hpa, List.countP_eq_length.mpr htall]
      simp
    · have hxa : x ≠ a := by rintro rfl; exact hx hat
      have hpx : p x = true := hrest x (List.mem_cons_self x t) hxa
      have hlen : 0 < t.length := List.length_pos.mpr (List.ne_nil_of_mem hat)
      have hcount := ih ht hat hpa (fun y hy hya => hrest y (List.mem_cons_of_mem _ hy) hya)
      simp only [List.countP_cons, hpx, if_true, List.length_cons, hcount]
      omega

/-- A conditional filterMap is a sublist of the corresponding map. -/
theorem filterMap_if_sublist {α β : Type} (g : α → β) (p : α → Bool) :
    ∀ l : List α,
      List.Sublist (l.filterMap (fun x => if p x then some (g x) else none)) (l.map g)
  | [] => by simp
  | x :: t => by
    rcases hp : p x with _ | _
    · simpa [hp] using (filterMap_if_sublist g p t).cons (g x)
    · simpa [hp] using (filterMap_if_sublist g p t).cons₂ (g x)

/-- contains on a string list is membership. -/
theorem contains_false_iff (l : List String) (s : String) :
    l.contains s = false ↔ s ∉ l := by
  simp

/-! ## Converter lemmas -/

/-- A successful second-variant conversion has written the destination. -/
theorem convertToWebP2_ok_wrote (w : World) (i o : String) (q : Int)
    (h : isOkB (convertToWebP2 w i o q).result = true) :
    (convertToWebP2 w i o q).wrote = true := by
  rcases hs : w.stat i with m | s
  · simp [convertToWebP2, hs, isOkB] at h
  · rcases hm : w.metadata i with m | wh
    · simp [convertToWebP2, hs, hm, isOkB] at h
    · obtain ⟨wd, ht⟩ := wh
      rcases he : w.encode i o q with m | u
      · simp [convertToWebP2, hs, hm, he, isOkB] at h
      · rcases hb : w.stat o with m | t
        · simp [convertToWebP2, hs, hm, he, hb]
        · simp [convertToWebP2, hs, hm, he, hb]

/-- A successful recompression has written the destination. -/
theorem recompressWebP2_ok_wrote (w : World) (i o : String) (q : Int)
    (h : isOkB (recompressWebP2 w i o q).result = true) :
    (recompressWebP2 w i o q).wrote = true := by
  rcases hs : w.stat i with m | s
  · simp [recompressWebP2, hs, isOkB] at h
  · rcases hm : w.metadata i with m | wh
    · simp [recompressWebP2, hs, hm, isOkB] at h
    · obtain ⟨wd, ht⟩ := wh
      rcases he : w.encode i o q with m | u
      · simp [recompressWebP2, hs, hm, he, isOkB] at h
      · rcases hb : w.stat o with m | t
        · simp [recompressWebP2, hs, hm, he, hb]
        · simp [recompressWebP2, hs, hm, he, hb]

/-- A successful copy has written the destination. -/
theorem copyWebP2_ok_wrote (w : World) (i o : String)
    (h : isOkB (copyWebP2 w i o).result = true) :
    (copyWebP2 w i o).wrote = true := by
  rcases hc : w.copyFile i o with m | u
  · simp [copyWebP2, hc, isOkB] at h
  · rcases hs : w.stat i with m | s <;> simp [copyWebP2, hc, hs]

/-- A successful first-variant conversion has written the destination. -/
theorem convertToWebP1_ok_wrote (w : World) (i o it : String)
    (h : isOkB (convertToWebP1 w i o it).result = true) :
    (convertToWebP1 w i o it).wrote = true := by
  rcases hs : w.stat i with m | s
  · simp [convertToWebP1, hs, isOkB] at h
  · rcases hm : w.metadata i with m | wh
    · simp [convertToWebP1, hs, hm, isOkB] at h
    · obtain ⟨wd, ht⟩ := wh
      rcases he : w.encodeResize i o 80 (targetBox it).1 (targetBox it).2.1
          (resizeOptsFor it wd ht) with m | u
      · simp [convertToWebP1, hs, hm, he, isOkB] at h
      · rcases hb : w.stat o with m | t
        · simp [convertToWebP1, hs, hm, he, hb]
        · simp [convertToWebP1, hs, hm, he, hb]

/-- A per-file operation that reports success has written its destination,
whichever of convert, recompress or copy ran. -/
theorem processOne2_ok_wrote (w : World) (nr : Bool) (q : Int) (f : String)
    (h : isOkB (processOne2 w nr q f).result = true) :
    (processOne2 w nr q f).wrote = true := by
  rcases hw : isWebpName f with _ | _
  · simp only [processOne2, hw, Bool.false_eq_true, if_false] at h ⊢
    exact convertToWebP2_ok_wrote _ _ _ _ h
  · rcases hn : nr with _ | _
    · simp only [processOne2, hw, hn, if_true, Bool.false_eq_true, if_false] at h ⊢
      exact recompressWebP2_ok_wrote _ _ _ _ h
    · simp only [processOne2, hw, hn, if_true] at h ⊢
      exact copyWebP2_ok_wrote _ _ _ h

/-! ## Claim theorems -/

/-- C2: the classifier lower-cases the filename and returns exactly one
bucket by testing tokens in the fixed order banner before screenshot before
cover: a banner token wins outright; failing that a screenshot token wins;
failing both, a cover token and the no-token default both yield cover. -/
theorem classifier_order_spec (f : String) :
    (hasBannerTok f = true → classify f = .banner)
    ∧ (hasBannerTok f = false → hasScreenTok f = true → classify f = .screenshot)
    ∧ (hasBannerTok f = false → hasScreenTok f = false → hasCoverTok f = true →
        classify f = .cover)
    ∧ (hasBannerTok f = false → hasScreenTok f = false → hasCoverTok f = false →
        classify f = .cover) := by
  refine ⟨?_, ?_, ?_, ?_⟩
  · intro hb; simp [classify, hb]
  · intro hb hs; simp [classify, hb, hs]
  · intro hb hs hc; simp [classify, hb, hs, hc]
  · intro hb hs hc; simp [classify, hb, hs, hc]

/-- Witness for C2 at the ambiguous example the spec itself names: "cover banner.png"
carries both a cover and a banner token and resolves to banner. -/
theorem classifier_order_spec_witness :
    (hasBannerTok "cover banner.png" = true ∧ classify "cover banner.png" = .banner)
    ∧ (hasBannerTok "shot.png" = false ∧ hasScreenTok "shot.png" = false
        ∧ hasCoverTok "shot.png" = false ∧ classify "shot.png" = .cover) :=
  ⟨⟨by decide, (classifier_order_spec "cover banner.png").1 (by decide)⟩,
    ⟨by decide, by decide, by decide,
      (classifier_order_spec "shot.png").2.2.2 (by decide) (by decide) (by decide)⟩⟩

/-- C6: a successful conversion of a source of S bytes into an output of T
bytes records savedSpace = S - T and reports the percentage
(S - T) / S * 100 rounded to one decimal; no branch clamps a negative
value. -/
theorem per_file_accounting (w : World) (inp outp : String) (q : Int) (s t wd ht : Nat)
    (hS : w.stat inp = .ok s) (hm : w.metadata inp = .ok (wd, ht))
    (he : w.encode inp outp q = .ok ()) (hT : w.stat outp = .ok t) :
    (convertToWebP2 w inp outp q).result = .ok s t ((s : Int) - t) inp
    ∧ Step.report s t ((s : Int) - t) (round1 (((s : ℚ) - t) / s * 100))
        ∈ (convertToWebP2 w inp outp q).steps := by
  constructor
  · simp [convertToWebP2, hS, hm, he, hT]
  · simp [convertToWebP2, hS, hm, he, hT]

/-- Witness for C6 with T greater than S: a 100-byte source producing a
150-byte output records savedSpace -50, and the reported ratio is the
un-clamped -50.0 percent. -/
theorem per_file_accounting_witness :
    wGrow.stat "input-images/a.jpg" = .ok 100
    ∧ wGrow.metadata "input-images/a.jpg" = .ok (600, 900)
    ∧ wGrow.encode "input-images/a.jpg" "covers/a.webp" 80 = .ok ()
    ∧ wGrow.stat "covers/a.webp" = .ok 150
    ∧ (convertToWebP2 wGrow "input-images/a.jpg" "covers/a.webp" 80).result
        = .ok 100 150 (-50) "input-images/a.jpg"
    ∧ round1 (((100 : ℚ) - 150) / 100 * 100) = -50 := by
  refine ⟨rfl, rfl, rfl, rfl, ?_, by norm_num [round1]⟩
  have h := per_file_accounting wGrow "input-images/a.jpg" "covers/a.webp" 80 100 150 600 900
    rfl rfl rfl rfl
  rw [h.1]
  norm_num

/-- C7: operation dispatch is by source format and the skip-recompression
flag: an existing WebP is byte-copied under the flag (equal before/after
sizes and zero computed savings) and re-encoded at the given quality
without it, while any non-WebP source takes the full conversion; the
recompression encode step carries the run quality. -/
theorem operation_selection (w : World) (q : Int) (s : Nat) (f : String) :
    (isWebpName f = true →
      processOne2 w true q f = copyWebP2 w (inputPathOf f) (destPath f)
      ∧ processOne2 w false q f = recompressWebP2 w (inputPathOf f) (destPath f) q)
    ∧ (isWebpName f = false →
      ∀ nr : Bool, processOne2 w nr q f = convertToWebP2 w (inputPathOf f) (destPath f) q)
    ∧ (w.copyFile (inputPathOf f) (destPath f) = .ok () → w.stat (inputPathOf f) = .ok s →
      (copyWebP2 w (inputPathOf f) (destPath f)).result = .ok s s 0 (inputPathOf f))
    ∧ (∀ wd ht : Nat, w.stat (inputPathOf f) = .ok s →
      w.metadata (inputPathOf f) = .ok (wd, ht) →
      Step.plainEncode (inputPathOf f) (destPath f) q
        ∈ (recompressWebP2 w (inputPathOf f) (destPath f) q).steps) := by
  refine ⟨?_, ?_, ?_, ?_⟩
  · intro hw; exact ⟨by simp [processOne2, hw], by simp [processOne2, hw]⟩
  · intro hw nr; simp [processOne2, hw]
  · intro hc hs; simp [copyWebP2, hc, hs]
  · intro wd ht hs hm
    rcases he : w.encode (inputPathOf f) (destPath f) q with m | u
    · simp [recompressWebP2, hs, hm, he]
    · rcases hb : w.stat (destPath f) with m | t <;> simp [recompressWebP2, hs, hm, he, hb]

/-- Witness for C7 on the already-WebP source pic.webp: the flag selects
the byte copy, whose result reports equal sizes and zero savings; without
the flag the recompression runs and its encode step carries quality 80. -/
theorem operation_selection_witness :
    isWebpName "pic.webp" = true
    ∧ processOne2 wAll true 80 "pic.webp"
        = copyWebP2 wAll (inputPathOf "pic.webp") (destPath "pic.webp")
    ∧ processOne2 wAll false 80 "pic.webp"
        = recompressWebP2 wAll (inputPathOf "pic.webp") (destPath "pic.webp") 80
    ∧ wAll.copyFile (inputPathOf "pic.webp") (destPath "pic.webp") = .ok ()
    ∧ wAll.stat (inputPathOf "pic.webp") = .ok 100
    ∧ (copyWebP2 wAll (inputPathOf "pic.webp") (destPath "pic.webp")).result
        = .ok 100 100 0 (inputPathOf "pic.webp")
    ∧ Step.plainEncode (inputPathOf "pic.webp") (destPath "pic.webp") 80
        ∈ (recompressWebP2 wAll (inputPathOf "pic.webp") (destPath "pic.webp") 80).steps := by
  have h := operation_selection wAll 80 100 "pic.webp"
  exact ⟨by decide, (h.1 (by decide)).1, (h.1 (by decide)).2, rfl, rfl,
    h.2.2.1 rfl rfl, h.2.2.2 600 900 rfl rfl⟩

/-- C8: the generated CDN URL is exactly the composition
https://cdn.jsdelivr.net/gh/owner/repo@branch/bucket/filename, and the
concrete instance for the cover bucket of x.webp at coordinates a, b, main
is the exact literal the spec names. -/
theorem url_generator_spec :
    (∀ (b : Bucket) (filename username repoName branch : String),
      urlFor b filename username repoName branch
        = "https://cdn.jsdelivr.net/gh/" ++ username ++ "/" ++ repoName ++ "@" ++ branch
            ++ "/" ++ bucketName2 b ++ "/" ++ filename)
    ∧ urlFor .cover "x.webp" "a" "b" "main"
        = "https://cdn.jsdelivr.net/gh/a/b@main/cover/x.webp" :=
  ⟨fun _ _ _ _ _ => rfl, by decide⟩

/-- C9: the convert subcommand reads its quality as
parseInt(process.argv[3]) || 80, so the documented form "--quality N" never
takes effect: the token "--quality" itself parses as NaN and the run falls
back to the default 80 (likewise any flag, or a missing argument); only a
bare leading number in position 3 would change the quality. -/
theorem quality_flag_unparsed :
    quality2 (some "--quality") = 80
    ∧ quality2 (some "--clean") = 80
    ∧ quality2 none = 80
    ∧ quality2 (some "50") = 50 := by
  refine ⟨by decide, by decide, by decide, by decide⟩

/-- C10: convertToWebP and recompressWebP of the second variant are
extensionally equal: at every world, input path, output path and quality
they produce the same result, the same write effect and the same step
trace (stat, probe, aspect warning outside [1/3, 3], plain encode at the
given quality, stat of the output, size report); the embedding omits only
their log wording, which is the sole textual difference in the source. -/
theorem convert_recompress_extensionally_equal :
    ∀ (w : World) (inputPath outputPath : String) (quality : Int),
      convertToWebP2 w inputPath outputPath quality
        = recompressWebP2 w inputPath outputPath quality :=
  fun _ _ _ _ => rfl

/-! ## Run-summary lemmas -/

/-- A success contributes no error entry. -/
theorem errEntry_of_ok {r : ConversionResult} (h : isOkB r = true) : errEntry r = none := by
  cases r <;> simp_all [isOkB, errEntry]

/-- The planned list of a duplicate-free directory listing is duplicate
free. -/
theorem planned2_nodup {files : List String} (h : files.Nodup) (fs0 : List String) :
    (planned2 fs0 files).Nodup := by
  unfold planned2 eligibleFiles
  exact (h.filter _).filter _

/-- The error list is the filterMap of the per-file error entries over the
planned files. -/
theorem runErrors2_eq (w : World) (nr : Bool) (q : Int) (fs0 files : List String) :
    runErrors2 w nr q fs0 files
      = (planned2 fs0 files).filterMap (fun g => errEntry (processOne2 w nr q g).result) := by
  simp only [runErrors2, runResults2, List.filterMap_map]
  rfl

/-- The success count is the count of succeeding planned files. -/
theorem runSuccessCount2_eq (w : World) (nr : Bool) (q : Int) (fs0 files : List String) :
    runSuccessCount2 w nr q fs0 files
      = (planned2 fs0 files).countP (fun g => isOkB (processOne2 w nr q g).result) := by
  simp only [runSuccessCount2, runResults2, List.countP_map]
  rfl

/-- C4: when exactly one planned file fails, its error is recorded as the
single entry of the error list of the run, carrying the basename of the file and the
message; the other files all count as successes (length minus one), and
the run still produces a result for every planned file, so no per-file
failure terminates the batch. -/
theorem single_failure_recorded (w : World) (nr : Bool) (q : Int) (fs0 files : List String)
    (fstar m : String) (hnd : files.Nodup) (hmem : fstar ∈ planned2 fs0 files)
    (herr : (processOne2 w nr q fstar).result = .err m (inputPathOf fstar))
    (hok : ∀ g ∈ planned2 fs0 files, g ≠ fstar → isOkB (processOne2 w nr q g).result = true) :
    runErrors2 w nr q fs0 files = [(lastComponent (inputPathOf fstar), m)]
    ∧ runSuccessCount2 w nr q fs0 files = (planned2 fs0 files).length - 1
    ∧ (runResults2 w nr q fs0 files).length = (planned2 fs0 files).length := by
  have hpl : (planned2 fs0 files).Nodup := planned2_nodup hnd fs0
  refine ⟨?_, ?_, by simp [runResults2]⟩
  · rw [runErrors2_eq]
    refine filterMap_eq_single hpl hmem ?_ ?_
    · rw [herr]; rfl
    · intro x hx hne
      exact errEntry_of_ok (hok x hx hne)
  · rw [runSuccessCount2_eq]
    refine countP_single_false hpl hmem ?_ hok
    rw [herr]; rfl

/-- Witness for C4: of the two files bad.jpg and good.png, only the first
fails (its metadata probe throws "unsupported"); the error list is exactly
that one entry and the success count is one. -/
theorem single_failure_recorded_witness :
    (["bad.jpg", "good.png"] : List String).Nodup
    ∧ "bad.jpg" ∈ planned2 [] ["bad.jpg", "good.png"]
    ∧ (processOne2 wBadMeta false 80 "bad.jpg").result
        = .err "unsupported" (inputPathOf "bad.jpg")
    ∧ runErrors2 wBadMeta false 80 [] ["bad.jpg", "good.png"]
        = [(lastComponent (inputPathOf "bad.jpg"), "unsupported")]
    ∧ runSuccessCount2 wBadMeta false 80 [] ["bad.jpg", "good.png"]
        = (planned2 [] ["bad.jpg", "good.png"]).length - 1 := by
  have h := single_failure_recorded wBadMeta false 80 [] ["bad.jpg", "good.png"] "bad.jpg"
    "unsupported" (by decide) (by decide) (by decide) (by decide)
  exact ⟨by decide, by decide, by decide, h.1, h.2.1⟩

/-! ## Resize policy lemmas -/

/-- Target box of the covers image type. -/
theorem targetBox_covers : targetBox "covers" = (600, 900, (2:ℚ)/3) := rfl

/-- Target box of the banners image type. -/
theorem targetBox_banners : targetBox "banners" = (1920, 1080, (16:ℚ)/9) := rfl

/-- Target box of the screenshots image type. -/
theorem targetBox_screenshots : targetBox "screenshots" = (1920, 1080, (16:ℚ)/9) := rfl

/-- A 600 by 900 source matches the cover ratio exactly, so the fit-inside
branch is taken. -/
theorem useCoverFit_covers_600_900 : useCoverFit "covers" 600 900 = false := by
  simp only [useCoverFit, targetBox_covers, decide_eq_false_iff_not, not_lt, Nat.cast_ofNat]
  rw [show (600:ℚ) / 900 - 2 / 3 = 0 by norm_num, abs_zero]
  norm_num

/-- A 1920 by 1080 source differs from the cover ratio by 10/9, so the
crop branch is taken. -/
theorem useCoverFit_covers_1920_1080 : useCoverFit "covers" 1920 1080 = true := by
  simp only [useCoverFit, targetBox_covers, decide_eq_true_eq, Nat.cast_ofNat]
  rw [show (1920:ℚ) / 1080 - 2 / 3 = 10 / 9 by norm_num]
  rw [show |(10:ℚ)/9| = 10/9 from abs_of_pos (by norm_num)]
  norm_num

/-- The options object of the fit-inside branch. -/
theorem resizeOpts_inside_600_900 :
    resizeOptsFor "covers" 600 900 = ⟨"inside", none, some false⟩ := by
  simp [resizeOptsFor, useCoverFit_covers_600_900]

/-- C3 counterexample: sharp suppresses upscaling only when
withoutEnlargement is true; the fit-inside branch of the source (line 133)
passes withoutEnlargement: false, so enlargement is permitted. Concretely,
a 600 by 900 cover source has ratio difference 0, hits the fit-inside
branch, and the recorded resize options carry withoutEnlargement = false,
refuting the phrase "fits inside the box without enlargement" of the claim. -/
theorem fit_inside_permits_enlargement :
    (convertToWebP1 wNoEnc "input-images/a.jpg" "covers/a.webp" "covers").steps
      = [.statIn "input-images/a.jpg", .probe "input-images/a.jpg",
         .resizeEncode "input-images/a.jpg" "covers/a.webp" 80 600 900
           ⟨"inside", none, some false⟩]
    ∧ (ResizeOpts.mk "inside" none (some false)).withoutEnlargement ≠ some true := by
  constructor
  · simp [convertToWebP1, wNoEnc, targetBox_covers, resizeOpts_inside_600_900]
  · simp

/-- C3 amended: cover sources get the 600 by 900 box at target ratio 2/3
(and 600/900 is 2/3), banner and screenshot sources the 1920 by 1080 box
at 16/9 (and 1920/1080 is 16/9); the fit mode is crop-to-fill from the
center when the native ratio differs from the target ratio by more than
0.1, and otherwise fit-inside with enlargement permitted (the source sets
withoutEnlargement to false); the conversion encodes with exactly the box
and options the policy selects. -/
theorem resize_policy_spec (b : Bucket) (wd ht : Nat) (w : World) (inp outp : String)
    (s : Nat) :
    (targetBox (folderType1 .cover) = (600, 900, (2:ℚ)/3) ∧ (600 : ℚ) / 900 = 2/3)
    ∧ (targetBox (folderType1 .banner) = (1920, 1080, (16:ℚ)/9)
        ∧ targetBox (folderType1 .screenshot) = (1920, 1080, (16:ℚ)/9)
        ∧ (1920 : ℚ) / 1080 = 16/9)
    ∧ resizeOptsFor (folderType1 b) wd ht
        = (if |(wd : ℚ) / ht - (targetBox (folderType1 b)).2.2| > 1/10
           then ⟨"cover", some "center", none⟩ else ⟨"inside", none, some false⟩)
    ∧ (w.stat inp = .ok s → w.metadata inp = .ok (wd, ht) →
        Step.resizeEncode inp outp 80 (targetBox (folderType1 b)).1
            (targetBox (folderType1 b)).2.1 (resizeOptsFor (folderType1 b) wd ht)
          ∈ (convertToWebP1 w inp outp (folderType1 b)).steps) := by
  refine ⟨⟨targetBox_covers, by norm_num⟩,
    ⟨targetBox_banners, targetBox_screenshots, by norm_num⟩, ?_, ?_⟩
  · by_cases hgt : |(wd : ℚ) / ht - (targetBox (folderType1 b)).2.2| > 1/10
    · simp [resizeOptsFor, useCoverFit, decide_eq_true_eq, hgt]
    · simp [resizeOptsFor, useCoverFit, decide_eq_true_eq, hgt]
  · intro hs hm
    rcases he : w.encodeResize inp outp 80 (targetBox (folderType1 b)).1
        (targetBox (folderType1 b)).2.1 (resizeOptsFor (folderType1 b) wd ht) with m | u
    · simp [convertToWebP1, hs, hm, he]
    · rcases hb : w.stat outp with m | t <;> simp [convertToWebP1, hs, hm, he, hb]

/-- Witness for C3 at a 1920 by 1080 source classified as cover: the
ratio difference exceeds 0.1, the policy selects the centered crop, and
the encode step of the conversion records the 600 by 900 box with those
options. -/
theorem resize_policy_spec_witness :
    wWide.stat "input-images/c.jpg" = .ok 100
    ∧ wWide.metadata "input-images/c.jpg" = .ok (1920, 1080)
    ∧ resizeOptsFor (folderType1 .cover) 1920 1080 = ⟨"cover", some "center", none⟩
    ∧ Step.resizeEncode "input-images/c.jpg" "covers/c.webp" 80
          (targetBox (folderType1 .cover)).1 (targetBox (folderType1 .cover)).2.1
          (resizeOptsFor (folderType1 .cover) 1920 1080)
        ∈ (convertToWebP1 wWide "input-images/c.jpg" "covers/c.webp"
            (folderType1 .cover)).steps := by
  have h := resize_policy_spec .cover 1920 1080 wWide "input-images/c.jpg" "covers/c.webp" 100
  refine ⟨rfl, rfl, ?_, h.2.2.2 rfl rfl⟩
  simp only [folderType1]
  simp [resizeOptsFor, useCoverFit_covers_1920_1080]

/-! ## Aggregate ratio -/

/-- C5 counterexample: a run with one success where the output grew from
100 to 150 bytes reports an aggregate ratio of 0 (the second variant
prints the literal 0 whenever totalSaved is not positive), while the
claimed formula gives -50 percent. -/
theorem aggregate_ratio_clamped :
    runSuccessCount2 wGrow false 80 [] ["a.jpg"] = 1
    ∧ runTotalOriginal2 wGrow false 80 [] ["a.jpg"] = 100
    ∧ runTotalConverted2 wGrow false 80 [] ["a.jpg"] = 150
    ∧ reportedRatio2 1 100 150 = some 0
    ∧ round1 (((100 : ℚ) - 150) / 100 * 100) = -50
    ∧ reportedRatio2 1 100 150 ≠ some (round1 (((100 : ℚ) - 150) / 100 * 100)) := by
  have h4 : reportedRatio2 1 100 150 = some 0 := by norm_num [reportedRatio2]
  have h5 : round1 (((100 : ℚ) - 150) / 100 * 100) = -50 := by norm_num [round1]
  refine ⟨by decide, by decide, by decide, h4, h5, ?_⟩
  rw [h4, h5]
  norm_num

/-- C5 amended: with zero successes the ratio is omitted; with at least
one success the second variant reports the rounded percentage only when
total saved is positive, and the literal 0 when total saved is zero or
negative (a clamp the claim does not allow for); the first variant reports
the rounded percentage unconditionally. -/
theorem aggregate_ratio_spec (w : World) (nr : Bool) (q : Int) (fs0 files : List String) :
    (runSuccessCount2 w nr q fs0 files = 0 →
      reportedRatio2 (runSuccessCount2 w nr q fs0 files) (runTotalOriginal2 w nr q fs0 files)
        (runTotalConverted2 w nr q fs0 files) = none)
    ∧ (0 < runSuccessCount2 w nr q fs0 files →
        runTotalConverted2 w nr q fs0 files < runTotalOriginal2 w nr q fs0 files →
        reportedRatio2 (runSuccessCount2 w nr q fs0 files) (runTotalOriginal2 w nr q fs0 files)
            (runTotalConverted2 w nr q fs0 files)
          = some (round1 (((runTotalOriginal2 w nr q fs0 files : ℚ)
              - (runTotalConverted2 w nr q fs0 files : ℚ))
              / (runTotalOriginal2 w nr q fs0 files : ℚ) * 100)))
    ∧ (0 < runSuccessCount2 w nr q fs0 files →
        runTotalOriginal2 w nr q fs0 files ≤ runTotalConverted2 w nr q fs0 files →
        reportedRatio2 (runSuccessCount2 w nr q fs0 files) (runTotalOriginal2 w nr q fs0 files)
          (runTotalConverted2 w nr q fs0 files) = some 0)
    ∧ (∀ sc o c : Nat, 0 < sc →
        reportedRatio1 sc o c = some (round1 (((o : ℚ) - c) / o * 100))) := by
  refine ⟨?_, ?_, ?_, ?_⟩
  · intro h
    simp [reportedRatio2, h]
  · intro hs hlt
    have hq : (0:ℚ) < (runTotalOriginal2 w nr q fs0 files : ℚ)
        - (runTotalConverted2 w nr q fs0 files : ℚ) :=
      sub_pos.mpr (by exact_mod_cast hlt)
    simp only [reportedRatio2, if_pos hs, if_pos hq]
  · intro hs hle
    have hq : ¬ ((0:ℚ) < (runTotalOriginal2 w nr q fs0 files : ℚ)
        - (runTotalConverted2 w nr q fs0 files : ℚ)) := by
      rw [not_lt]
      exact sub_nonpos.mpr (by exact_mod_cast hle)
    simp only [reportedRatio2, if_pos hs, if_neg hq]
  · intro sc o c hsc
    simp [reportedRatio1, hsc]

/-- Witness for C5: the wGrow run has one success with totals 100 and 150,
so the clamped branch applies and reports 0; and an empty run reports no
ratio at all. -/
theorem aggregate_ratio_spec_witness :
    (0 < runSuccessCount2 wGrow false 80 [] ["a.jpg"]
      ∧ runTotalOriginal2 wGrow false 80 [] ["a.jpg"]
          ≤ runTotalConverted2 wGrow false 80 [] ["a.jpg"]
      ∧ reportedRatio2 (runSuccessCount2 wGrow false 80 [] ["a.jpg"])
          (runTotalOriginal2 wGrow false 80 [] ["a.jpg"])
          (runTotalConverted2 wGrow false 80 [] ["a.jpg"]) = some 0)
    ∧ (runSuccessCount2 wAll false 80 [] [] = 0
      ∧ reportedRatio2 (runSuccessCount2 wAll false 80 [] [])
          (runTotalOriginal2 wAll false 80 [] [])
          (runTotalConverted2 wAll false 80 [] []) = none) :=
  ⟨⟨by decide, by decide,
      (aggregate_ratio_spec wGrow false 80 [] ["a.jpg"]).2.2.1 (by decide) (by decide)⟩,
    ⟨by decide, (aggregate_ratio_spec wAll false 80 [] []).1 (by decide)⟩⟩

/-- C1 counterexample: in the second variant every existence check runs
before any write (each Promise.all callback reaches existsSync before its
first await), so the two sources a.jpg and a.png, which share the base
name a and the cover bucket, are both planned and both write the single
destination covers/a.webp: one destination path is written twice in one
run. -/
theorem dest_written_twice :
    writes2 wAll false 80 [] ["a.jpg", "a.png"] = ["covers/a.webp", "covers/a.webp"]
    ∧ ¬ (writes2 wAll false 80 [] ["a.jpg", "a.png"]).Nodup := by
  exact ⟨by decide, by decide⟩

/-! ## Sequential-loop lemmas -/

/-- contains on a string list, positive form. -/
theorem contains_true_iff (l : List String) (s : String) :
    l.contains s = true ↔ s ∈ l := by
  simp

/-- A skipped iteration leaves the state unchanged. -/
theorem seqStep_skip (w : World) (st : SeqState) (f : String)
    (h : st.existing.contains (destPath f) = true) : seqStep w st f = st := by
  unfold seqStep
  rw [h]
  simp

/-- A dispatched iteration appends the write and the invocation and
accumulates. -/
theorem seqStep_go (w : World) (st : SeqState) (f : String)
    (h : st.existing.contains (destPath f) = false) :
    seqStep w st f =
      ⟨st.existing ++ seqWr w f, st.writes ++ seqWr w f, st.invoked ++ [f],
        st.totalOriginalSize + origSizeOf (seqConv w f).result,
        st.totalConvertedSize + convSizeOf (seqConv w f).result,
        st.successCount + (if isOkB (seqConv w f).result then 1 else 0)⟩ := by
  unfold seqStep
  rw [h]
  simp

/-- Anything in a write batch is the destination path of the file. -/
theorem mem_seqWr {w : World} {f : String} {d : String} (h : d ∈ seqWr w f) :
    d = destPath f := by
  unfold seqWr at h
  split at h
  · simpa using h
  · cases h

/-- A successful conversion writes, so its write batch is the singleton. -/
theorem seqWr_of_ok {w : World} {f : String} (h : isOkB (seqConv w f).result = true) :
    seqWr w f = [destPath f] := by
  have hw : (seqConv w f).wrote = true :=
    convertToWebP1_ok_wrote w (inputPathOf f) (destPath f) (folderType1 (classify f)) h
  simp [seqWr, hw]

/-- The existing set only grows along one iteration. -/
theorem seqStep_existing_sub (w : World) (st : SeqState) (f : String) :
    st.existing ⊆ (seqStep w st f).existing := by
  rcases hc : st.existing.contains (destPath f) with _ | _
  · rw [seqStep_go w st f hc]
    exact List.subset_append_left _ _
  · rw [seqStep_skip w st f hc]
    exact fun a ha => ha

/-- The existing set only grows along the whole loop. -/
theorem runSeqAux_existing_sub (w : World) :
    ∀ (l : List String) (st : SeqState), st.existing ⊆ (runSeqAux w st l).existing := by
  intro l
  induction l with
  | nil => intro st; exact fun a ha => ha
  | cons f rest ih =>
    intro st
    exact fun a ha => ih (seqStep w st f) (seqStep_existing_sub w st f ha)

/-- Loop invariant: the write log stays duplicate free and below the
existing set. -/
theorem runSeqAux_writes_inv (w : World) :
    ∀ (l : List String) (st : SeqState),
      st.writes.Nodup → (∀ d ∈ st.writes, d ∈ st.existing) →
      (runSeqAux w st l).writes.Nodup
        ∧ ∀ d ∈ (runSeqAux w st l).writes, d ∈ (runSeqAux w st l).existing := by
  intro l
  induction l with
  | nil => intro st h1 h2; exact ⟨h1, h2⟩
  | cons f rest ih =>
    intro st h1 h2
    refine ih (seqStep w st f) ?_ ?_
    · rcases hc : st.existing.contains (destPath f) with _ | _
      · rw [seqStep_go w st f hc]
        have hnotin : destPath f ∉ st.existing := (contains_false_iff _ _).mp hc
        refine List.Nodup.append h1 ?_ ?_
        · unfold seqWr
          split
          · exact List.nodup_singleton _
          · exact List.nodup_nil
        · intro a ha hb
          have : a = destPath f := mem_seqWr hb
          subst this
          exact hnotin (h2 _ ha)
      · rw [seqStep_skip w st f hc]
        exact h1
    · rcases hc : st.existing.contains (destPath f) with _ | _
      · rw [seqStep_go w st f hc]
        intro d hd
        rcases List.mem_append.mp hd with hd1 | hd2
        · exact List.mem_append_left _ (h2 _ hd1)
        · exact List.mem_append_right _ hd2
      · rw [seqStep_skip w st f hc]
        exact h2

/-- Loop invariant: paths of fs0 are never written and files with a
destination in fs0 are never dispatched, as long as fs0 is below the
existing set. -/
theorem runSeqAux_fresh (w : World) (fs0 : List String) :
    ∀ (l : List String) (st : SeqState),
      fs0 ⊆ st.existing → (∀ d ∈ st.writes, d ∉ fs0) →
      (∀ f : String, destPath f ∈ fs0 → f ∉ st.invoked) →
      (∀ d ∈ (runSeqAux w st l).writes, d ∉ fs0)
        ∧ ∀ f : String, destPath f ∈ fs0 → f ∉ (runSeqAux w st l).invoked := by
  intro l
  induction l with
  | nil => intro st _ h2 h3; exact ⟨h2, h3⟩
  | cons f rest ih =>
    intro st h1 h2 h3
    refine ih (seqStep w st f) ?_ ?_ ?_
    · exact fun a ha => seqStep_existing_sub w st f (h1 ha)
    · rcases hc : st.existing.contains (destPath f) with _ | _
      · rw [seqStep_go w st f hc]
        intro d hd
        rcases List.mem_append.mp hd with hd1 | hd2
        · exact h2 _ hd1
        · have : d = destPath f := mem_seqWr hd2
          subst this
          intro hmem
          exact (contains_false_iff _ _).mp hc (h1 hmem)
      · rw [seqStep_skip w st f hc]
        exact h2
    · rcases hc : st.existing.contains (destPath f) with _ | _
      · rw [seqStep_go w st f hc]
        intro g hg hgmem
        rcases List.mem_append.mp hgmem with hg1 | hg2
        · exact h3 g hg hg1
        · have : g = f := by simpa using hg2
          subst this
          exact (contains_false_iff _ _).mp hc (h1 hg)
      · rw [seqStep_skip w st f hc]
        exact h3

/-- A file of the list whose conversion succeeds has its destination in
the final existing set. -/
theorem runSeqAux_ok_mem (w : World) :
    ∀ (l : List String) (st : SeqState) (f : String), f ∈ l →
      isOkB (seqConv w f).result = true → destPath f ∈ (runSeqAux w st l).existing := by
  intro l
  induction l with
  | nil => intro st f hf; cases hf
  | cons g rest ih =>
    intro st f hf hok
    rcases List.mem_cons.mp hf with rfl | hf2
    · have hmem : destPath f ∈ (seqStep w st f).existing := by
        rcases hc : st.existing.contains (destPath f) with _ | _
        · rw [seqStep_go w st f hc, seqWr_of_ok hok]
          show destPath f ∈ st.existing ++ [destPath f]
          exact List.mem_append_right _ (List.mem_singleton_self _)
        · rw [seqStep_skip w st f hc]
          exact (contains_true_iff _ _).mp hc
      exact runSeqAux_existing_sub w rest (seqStep w st f) hmem
    · exact ih (seqStep w st g) f hf2 hok

/-- When every file of the list either has its destination already present
or fails to convert, the loop adds no successes. -/
theorem runSeqAux_no_success (w : World) :
    ∀ (l : List String) (st : SeqState),
      (∀ f ∈ l, destPath f ∈ st.existing ∨ isOkB (seqConv w f).result = false) →
      (runSeqAux w st l).successCount = st.successCount := by
  intro l
  induction l with
  | nil => intro st _; rfl
  | cons f rest ih =>
    intro st h
    have hsub : st.existing ⊆ (seqStep w st f).existing := seqStep_existing_sub w st f
    have hsc : (seqStep w st f).successCount = st.successCount := by
      rcases h f (List.mem_cons_self f rest) with hmem | hfail
      · rw [seqStep_skip w st f ((contains_true_iff _ _).mpr hmem)]
      · rcases hc : st.existing.contains (destPath f) with _ | _
        · rw [seqStep_go w st f hc]
          simp [hfail]
        · rw [seqStep_skip w st f hc]
    have hrest : ∀ g ∈ rest, destPath g ∈ (seqStep w st f).existing
        ∨ isOkB (seqConv w g).result = false := by
      intro g hg
      rcases h g (List.mem_cons_of_mem _ hg) with hmem | hfail
      · exact Or.inl (hsub hmem)
      · exact Or.inr hfail
    exact (ih (seqStep w st f) hrest).trans hsc

/-! ## Planned-list lemmas for the second variant -/

/-- The destination of a planned file did not exist before the run. -/
theorem planned2_dest_not_mem {fs0 files : List String} {f : String}
    (h : f ∈ planned2 fs0 files) : destPath f ∉ fs0 := by
  unfold planned2 at h
  have hb := (List.mem_filter.mp h).2
  exact (contains_false_iff _ _).mp (by simpa using hb)

/-- Every written destination comes from some planned file. -/
theorem mem_writes2 {wc : World} {nr : Bool} {q : Int} {fs0 files : List String} {d : String}
    (h : d ∈ writes2 wc nr q fs0 files) : ∃ f ∈ planned2 fs0 files, destPath f = d := by
  unfold writes2 at h
  rcases List.mem_filterMap.mp h with ⟨f, hf, heq⟩
  refine ⟨f, hf, ?_⟩
  rcases hw : (processOne2 wc nr q f).wrote with _ | _
  · rw [hw] at heq
    simp at heq
  · rw [hw] at heq
    simpa using heq

/-- A planned file that succeeds puts its destination into the write log. -/
theorem writes2_of_ok {wc : World} {nr : Bool} {q : Int} {fs0 files : List String} {f : String}
    (hf : f ∈ planned2 fs0 files) (hok : isOkB (processOne2 wc nr q f).result = true) :
    destPath f ∈ writes2 wc nr q fs0 files := by
  have hw := processOne2_ok_wrote wc nr q f hok
  unfold writes2
  exact List.mem_filterMap.mpr ⟨f, hf, by rw [if_pos hw]⟩

/-- C1 amended: in the sequential variant every destination path is
written at most once per run; in the concurrent variant the same holds
whenever the destination paths of the planned files are pairwise distinct
(sources sharing a base name and bucket race on one destination, the
accepted hazard the concurrency section of the spec documents); in both
variants a destination existing before the run is never overwritten and
its source is never dispatched; and a re-run over the same input with the
outputs of the first run present performs zero new conversions. -/
theorem skip_if_exists_spec (w wc : World) (nr : Bool) (q : Int) (fs0 files : List String) :
    (runSeq w fs0 files).writes.Nodup
    ∧ (((planned2 fs0 files).map destPath).Nodup → (writes2 wc nr q fs0 files).Nodup)
    ∧ (∀ d ∈ fs0, d ∉ (runSeq w fs0 files).writes ∧ d ∉ writes2 wc nr q fs0 files)
    ∧ (∀ f : String, destPath f ∈ fs0 →
        f ∉ (runSeq w fs0 files).invoked ∧ f ∉ planned2 fs0 files)
    ∧ runSuccessCount2 wc nr q (fs0 ++ writes2 wc nr q fs0 files) files = 0
    ∧ (runSeq w ((runSeq w fs0 files).existing) files).successCount = 0 := by
  have hfresh := runSeqAux_fresh w fs0 (files.filter isImageFile)
    ⟨fs0, [], [], 0, 0, 0⟩ (fun a ha => ha) (by simp) (by simp)
  refine ⟨?_, ?_, ?_, ?_, ?_, ?_⟩
  · exact (runSeqAux_writes_inv w (files.filter isImageFile)
      ⟨fs0, [], [], 0, 0, 0⟩ (by simp) (by simp)).1
  · intro hnd
    exact hnd.sublist (filterMap_if_sublist destPath
      (fun f => (processOne2 wc nr q f).wrote) (planned2 fs0 files))
  · intro d hd
    constructor
    · intro hw
      exact hfresh.1 d hw hd
    · intro hw
      rcases mem_writes2 hw with ⟨f, hf, rfl⟩
      exact planned2_dest_not_mem hf hd
  · intro f hdf
    constructor
    · exact hfresh.2 f hdf
    · intro hf
      exact planned2_dest_not_mem hf hdf
  · rw [runSuccessCount2_eq]
    apply List.countP_eq_zero.mpr
    intro f hf hok
    have hdna : destPath f ∉ fs0 ++ writes2 wc nr q fs0 files := planned2_dest_not_mem hf
    have hd1 : destPath f ∉ fs0 := fun h => hdna (List.mem_append_left _ h)
    have hd2 : destPath f ∉ writes2 wc nr q fs0 files :=
      fun h => hdna (List.mem_append_right _ h)
    have hfe : f ∈ eligibleFiles files := by
      unfold planned2 at hf
      exact (List.mem_filter.mp hf).1
    have hfp1 : f ∈ planned2 fs0 files := by
      unfold planned2
      refine List.mem_filter.mpr ⟨hfe, ?_⟩
      simpa using hd1
    exact hd2 (writes2_of_ok hfp1 hok)
  · refine runSeqAux_no_success w (files.filter isImageFile) _ ?_
    intro f hf
    by_cases hb : isOkB (seqConv w f).result = true
    · exact Or.inl (runSeqAux_ok_mem w (files.filter isImageFile)
        ⟨fs0, [], [], 0, 0, 0⟩ f hf hb)
    · refine Or.inr ?_
      rcases hcase : isOkB (seqConv w f).result with _ | _
      · rfl
      · exact absurd hcase hb

/-- Witness for C1: with covers/x.webp present before the run, its source
x.jpg is skipped by both variants and the pre-existing destination is
never written; the remaining planned destination list is duplicate free,
so the concurrent write log is too. -/
theorem skip_if_exists_spec_witness :
    ((planned2 ["covers/x.webp"] ["x.jpg", "y.png"]).map destPath).Nodup
    ∧ (writes2 wAll false 80 ["covers/x.webp"] ["x.jpg", "y.png"]).Nodup
    ∧ "covers/x.webp" ∈ (["covers/x.webp"] : List String)
    ∧ "covers/x.webp" ∉ (runSeq wAll ["covers/x.webp"] ["x.jpg", "y.png"]).writes
    ∧ "covers/x.webp" ∉ writes2 wAll false 80 ["covers/x.webp"] ["x.jpg", "y.png"]
    ∧ destPath "x.jpg" ∈ (["covers/x.webp"] : List String)
    ∧ "x.jpg" ∉ (runSeq wAll ["covers/x.webp"] ["x.jpg", "y.png"]).invoked
    ∧ "x.jpg" ∉ planned2 ["covers/x.webp"] ["x.jpg", "y.png"] := by
  have h := skip_if_exists_spec wAll wAll false 80 ["covers/x.webp"] ["x.jpg", "y.png"]
  have hb := h.2.1 (by decide)
  have hc := h.2.2.1 "covers/x.webp" (by decide)
  have hd := h.2.2.2.1 "x.jpg" (by decide)
  exact ⟨by decide, hb, by decide, hc.1, hc.2, by decide, hd.1, hd.2⟩

end GSL
